import Mathlib

/-!
Shallow embedding of the gcsfuse file-inode core (package `inode`):
the `FileInode` state machine (`clobbered`, `Read`, `Write`, `Truncate`,
`SetMtime`, `Sync`, `Attributes`, `Destroy`, `CreateBufferedOrTempWriter`)
and the directory `typeCache`.

Modelling conventions:
* Go `time.Time` and `time.Duration` are modelled as `Int` (nanoseconds);
  no claim depends on the representation of time beyond ordering and
  addition of a duration.
* Machine integers (`int64`, `uint64`) are modelled as `Int`; no claim
  involves overflow, and every size reachable in the model is non-negative,
  so the Go conversions `uint64(x)` are identities.
* Every bucket / GCS round-trip is embedded by passing the bucket's
  response for that call as an explicit argument (the code's behaviour is a
  function of that response).
* Library calls (`strconv.ParseInt` + `time.Unix`, `time.Parse`) are
  embedded as oracle function arguments `String → Option Int`.
-/

namespace Gcsfuse

/-- Errors returned by the bucket (gcs package sentinels plus generic
transport errors). -/
inductive GErr where
  | notFound
  | precondition
  | transport (msg : String)
  deriving DecidableEq, Repr

/-- Errors surfaced by the inode layer. `gcsOp tag e` models
`fmt.Errorf("Tag: %w", e)` around a bucket error; `wrap tag e` models the
same wrapping around an inode-level error; `fileClobbered` models
`gcsfuse_errors.FileClobberedError`; `badMetadata s` models the
`time.Parse(...)` failure surfaced from `Attributes`. -/
inductive IErr where
  | gcsOp (tag : String) (e : GErr)
  | wrap (tag : String) (inner : IErr)
  | fileClobbered (inner : Option IErr)
  | badMetadata (s : String)
  | readDuringUpload
  | outOfOrderWrite
  | uploadFailed

/-- Generation pair of a remote object. -/
structure Generation where
  object : Int
  metadata : Int
  deriving DecidableEq, Repr

/-- Modelled from the spec: `Generation.Compare` lives in the inode package
outside the given sources; the spec defines the total order
`a < b ⇔ a.object < b.object ∨ (a.object == b.object ∧ a.meta < b.meta)`,
with equality used as the clobber test. -/
def Generation.compare (a b : Generation) : Int :=
  if a.object < b.object then -1
  else if b.object < a.object then 1
  else if a.metadata < b.metadata then -1
  else if b.metadata < a.metadata then 1
  else 0

/-- Record for gcs.MinObject (the fields the inode consumes). Metadata is
an association list, modelling the Go string map. -/
structure MinObject where
  name : String
  generation : Int
  metaGeneration : Int
  size : Int
  updated : Int
  metadata : List (String × String)
  hasContentEncodingGzip : Bool
  deriving DecidableEq, Repr

/-- Zero value of gcs.MinObject (what a local inode starts from). -/
def MinObject.zero : MinObject :=
  { name := "", generation := 0, metaGeneration := 0, size := 0,
    updated := 0, metadata := [], hasContentEncodingGzip := false }

/-- Record for gcs.Object (full object returned by stat / update / sync),
restricted to the fields `ConvertObjToMinObject` copies. -/
structure ObjectRecord where
  name : String
  generation : Int
  metaGeneration : Int
  size : Int
  updated : Int
  metadata : List (String × String)
  hasContentEncodingGzip : Bool
  deriving DecidableEq, Repr

/-- Embedding of storageutil.ConvertObjToMinObject. -/
def ObjectRecord.toMinObject (o : ObjectRecord) : MinObject :=
  { name := o.name, generation := o.generation,
    metaGeneration := o.metaGeneration, size := o.size,
    updated := o.updated, metadata := o.metadata,
    hasContentEncodingGzip := o.hasContentEncodingGzip }

/-- Go map lookup on the metadata association list. -/
def metaLookup (m : List (String × String)) (k : String) : Option String :=
  match m.find? (fun p => p.1 = k) with
  | some p => some p.2
  | none => none

/-- Modelled from the spec: gcsx.TempFile (the scratch content, component
C2) is outside the given sources. Per the spec it tracks a logical size and
an optional dirty mtime, `Some` iff any mutation occurred. -/
structure TempFile where
  size : Int
  mtime : Option Int
  deriving DecidableEq, Repr

/-- Modelled from the spec: write_at marks dirty and updates dirty_mtime to
now; holes read as zero, so the size grows to cover the written range. -/
def TempFile.writeAt (c : TempFile) (len : Nat) (offset : Int) (now : Int) :
    TempFile :=
  { size := max c.size (offset + len), mtime := some now }

/-- Modelled from the spec: truncate sets the logical size and is a
mutation, so it marks dirty. -/
def TempFile.truncate (_c : TempFile) (n : Int) (now : Int) : TempFile :=
  { size := n, mtime := some now }

/-- Modelled from the spec: set_mtime records the mtime to report from
stat (a mutation, so the file is dirty afterwards). -/
def TempFile.setMtime (c : TempFile) (t : Int) : TempFile :=
  { c with mtime := some t }

/-- Modelled from the spec: bufferedwrites.BufferedWriteHandler (component
C3) is outside the given sources. Per the spec it tracks the contiguous
total size written so far, the recorded mtime, and a one-shot failure
latch. -/
structure BufferedWriteHandler where
  totalSize : Int
  mtime : Int
  failed : Bool
  deriving DecidableEq, Repr

/-- Modelled from the spec: offsets must form a contiguous sequence
starting at 0; a non-contiguous write fails with OutOfOrderWrite and
latches the failure; a write observing a latched failure fails fast with
UploadFailed. -/
def BufferedWriteHandler.write (b : BufferedWriteHandler) (len : Nat)
    (offset : Int) : BufferedWriteHandler × Option IErr :=
  if b.failed then (b, some .uploadFailed)
  else if offset ≠ b.totalSize then ({ b with failed := true }, some .outOfOrderWrite)
  else ({ b with totalSize := b.totalSize + len }, none)

/-- Modelled from the spec: set_mtime records the mtime to be stamped at
finalize. -/
def BufferedWriteHandler.setMtime (b : BufferedWriteHandler) (t : Int) :
    BufferedWriteHandler :=
  { b with mtime := t }

/-- Modelled from the spec: write_file_info reports the logical size and
current mtime synchronously. -/
structure WriteFileInfo where
  totalSize : Int
  mtime : Int
  deriving DecidableEq, Repr

/-- Modelled from the spec: the bwh's synchronous size/mtime report. -/
def BufferedWriteHandler.writeFileInfo (b : BufferedWriteHandler) :
    WriteFileInfo :=
  { totalSize := b.totalSize, mtime := b.mtime }

/-- Entry of the content cache as consumed by ensureContent: stored
generation pair plus the cached temp file. -/
structure CacheObject where
  generation : Int
  metaGeneration : Int
  file : TempFile
  deriving DecidableEq, Repr

/-- Subset of fuseops.InodeAttributes that `FileInode.Attributes`
computes. -/
structure InodeAttributes where
  size : Int
  mtime : Int
  atime : Int
  ctime : Int
  nlink : Nat
  deriving DecidableEq, Repr

/-- Mutable state of FileInode (the fields the embedded operations read or
write), together with the configuration the operations consult.
`streamingWrites` is `writeConfig.ExperimentalEnableStreamingWrites`;
`name` is `name.GcsObjectName()`. -/
structure FileInode where
  name : String
  attrs : InodeAttributes
  src : MinObject
  content : Option TempFile
  bwh : Option BufferedWriteHandler
  local_ : Bool
  unlinked : Bool
  destroyed : Bool
  localFileCache : Bool
  streamingWrites : Bool
  deriving DecidableEq, Repr

/-- Embedding of NewFileInode: zero MinObject when `m` is nil, content and
bwh start unmaterialized. -/
def NewFileInode (name : String) (attrs : InodeAttributes)
    (m : Option MinObject) (localFileCache : Bool) (localFile : Bool)
    (streamingWrites : Bool) : FileInode :=
  { name := name, attrs := attrs, src := m.getD MinObject.zero,
    content := none, bwh := none, local_ := localFile, unlinked := false,
    destroyed := false, localFileCache := localFileCache,
    streamingWrites := streamingWrites }

/-- Embedding of FileInode.IsLocal. -/
def FileInode.IsLocal (f : FileInode) : Bool := f.local_

/-- Embedding of FileInode.IsUnlinked. -/
def FileInode.IsUnlinked (f : FileInode) : Bool := f.unlinked

/-- Embedding of FileInode.Unlink. -/
def FileInode.Unlink (f : FileInode) : FileInode := { f with unlinked := true }

/-- Embedding of FileInode.SourceGeneration. -/
def FileInode.SourceGeneration (f : FileInode) : Generation :=
  { object := f.src.generation, metadata := f.src.metaGeneration }

/-- Embedding of FileInode.SourceGenerationIsAuthoritative: true when both
content and bwh are nil. -/
def FileInode.SourceGenerationIsAuthoritative (f : FileInode) : Bool :=
  f.content = none && f.bwh = none

/-- Embedding of FileInode.clobbered. The bucket's StatObject response is
passed as `stat`; the two boolean request flags only shape the request, so
they do not enter the outcome. Returns (latest object, clobbered, error)
exactly as the source does: NotFound clears the error and reports
clobbered iff the inode is non-local; other errors are wrapped with
"StatObject"; on success, clobbered iff the generation pair differs from
the source generation. -/
def FileInode.clobbered (f : FileInode) (_forceFetchFromGcs : Bool)
    (_includeExtendedObjectAttributes : Bool)
    (stat : Except GErr ObjectRecord) :
    Option ObjectRecord × Bool × Option IErr :=
  match stat with
  | .error .notFound =>
      if f.IsLocal then (none, false, none) else (none, true, none)
  | .error e => (none, false, some (.gcsOp ("StatObject") e))
  | .ok o =>
      let oGen : Generation := { object := o.generation, metadata := o.metaGeneration }
      (some o, decide (Generation.compare f.SourceGeneration oGen ≠ 0), none)

/-- Embedding of FileInode.openReader. The bucket's NewReader response is
passed as `resp` (the payload of a successful read is irrelevant to the
inode state, so it is `Unit`). A NotFound is converted to
FileClobberedError wrapping "NewReader: NotFound" and, like every error,
wrapped once more with "NewReader". -/
def FileInode.openReader (_f : FileInode) (resp : Except GErr Unit) :
    Option IErr :=
  match resp with
  | .ok _ => none
  | .error .notFound =>
      some (.wrap ("NewReader") (.fileClobbered (some (.gcsOp ("NewReader") .notFound))))
  | .error e => some (.gcsOp ("NewReader") e)

/-- Embedding of FileInode.ensureContent. `readerResp` is the bucket's
NewReader response; `cacheHit` is the content cache's Get result (only
consulted when localFileCache is enabled). A freshly downloaded temp file
mirrors the pinned source generation, hence has the source's size and no
dirty mtime. Cache insertion failures are not modelled (the cache is a
peer subsystem; the spec specifies only its get/add contract). -/
def FileInode.ensureContent (f : FileInode) (readerResp : Except GErr Unit)
    (cacheHit : Option CacheObject) : FileInode × Option IErr :=
  if f.localFileCache then
    match cacheHit with
    | some co =>
        if co.generation = f.src.generation ∧ co.metaGeneration = f.src.metaGeneration then
          ({ f with content := some co.file }, none)
        else
          match f.openReader readerResp with
          | some e => (f, some (.wrap ("openReader Error") e))
          | none => ({ f with content := some { size := f.src.size, mtime := none } }, none)
    | none =>
        match f.openReader readerResp with
        | some e => (f, some (.wrap ("openReader Error") e))
        | none => ({ f with content := some { size := f.src.size, mtime := none } }, none)
  else
    if f.content.isSome then (f, none)
    else
      match f.openReader readerResp with
      | some e => (f, some (.wrap ("openReader Error") e))
      | none => ({ f with content := some { size := f.src.size, mtime := none } }, none)

/-- Embedding of FileInode.ensureBufferedWriteHandler: creates the bwh if
absent and stamps the current clock as its mtime. (Creation failure of the
underlying block pool is not modelled; the spec gives no failure mode for
creation.) -/
def FileInode.ensureBufferedWriteHandler (f : FileInode) (now : Int) : FileInode :=
  match f.bwh with
  | some _ => f
  | none => { f with bwh := some { totalSize := 0, mtime := now, failed := false } }

/-- Embedding of FileInode.Destroy: marks destroyed; with the local file
cache the entry is removed from the cache, otherwise the temp file's
resources are released. Neither path nils the content field. -/
def FileInode.Destroy (f : FileInode) : FileInode :=
  { f with destroyed := true }

/-- Embedding of FileInode.Read. Refuses when a bwh exists (upload in
progress), otherwise ensures content and reads from it (reading does not
change the inode state beyond materializing content). -/
def FileInode.Read (f : FileInode) (readerResp : Except GErr Unit)
    (cacheHit : Option CacheObject) : FileInode × Option IErr :=
  if f.bwh.isSome then (f, some .readDuringUpload)
  else
    match f.ensureContent readerResp cacheHit with
    | (f', some e) => (f', some (.wrap ("ensureContent") e))
    | (f', none) => (f', none)

/-- Which backing served a Write call: the buffered write handler, or the
ensureContent/scratch path. This observation is the branch
`if f.bwh != nil` of the source, recorded so theorems can speak about the
routing. -/
inductive WriteRoute where
  | streamed
  | viaScratch
  deriving DecidableEq, Repr

/-- Embedding of FileInode.Write. When the source size is 0 and streaming
writes are configured, the bwh is created if absent; if a bwh now exists
the write is enqueued to it; otherwise content is ensured and the write
goes to the temp file. -/
def FileInode.Write (f : FileInode) (len : Nat) (offset : Int) (now : Int)
    (readerResp : Except GErr Unit) (cacheHit : Option CacheObject) :
    FileInode × Option IErr × WriteRoute :=
  let f := if f.src.size = 0 ∧ f.streamingWrites then
      f.ensureBufferedWriteHandler now
    else f
  match f.bwh with
  | some b =>
      let (b', e) := b.write len offset
      ({ f with bwh := some b' }, e, .streamed)
  | none =>
      match f.ensureContent readerResp cacheHit with
      | (f', some e) => (f', some (.wrap ("ensureContent") e), .viaScratch)
      | (f', none) =>
          match f'.content with
          | some c =>
              ({ f' with content := some (c.writeAt len offset now) }, none, .viaScratch)
          | none => (f', none, .viaScratch)

/-- Embedding of FileInode.Truncate: ensure content, then truncate the
temp file. -/
def FileInode.Truncate (f : FileInode) (size : Int) (now : Int)
    (readerResp : Except GErr Unit) (cacheHit : Option CacheObject) :
    FileInode × Option IErr :=
  match f.ensureContent readerResp cacheHit with
  | (f', some e) => (f', some (.wrap ("ensureContent") e))
  | (f', none) =>
      match f'.content with
      | some c => ({ f' with content := some (c.truncate size now) }, none)
      | none => (f', none)

/-- Dirty-mtime of the temp file as SetMtime's stat sees it: the zero
StatResult (no mtime) when content is nil, the content's stat otherwise. -/
def FileInode.statContentMtime (f : FileInode) : Option Int :=
  match f.content with
  | some c => c.mtime
  | none => none

/-- Embedding of FileInode.SetMtime. With a bwh, the mtime is recorded on
it. Otherwise, if the temp file is dirty or the inode is local, the mtime
is set on the temp file. Otherwise the backing object's metadata is
patched via UpdateObject (response passed as `updateResp`): on success the
returned object is adopted; NotFound and Precondition are silently
swallowed; other errors are wrapped with "UpdateObject". -/
def FileInode.SetMtime (f : FileInode) (mtime : Int)
    (updateResp : Except GErr ObjectRecord) : FileInode × Option IErr :=
  match f.bwh with
  | some b => ({ f with bwh := some (b.setMtime mtime) }, none)
  | none =>
      if f.statContentMtime.isSome || f.IsLocal then
        ({ f with content := f.content.map (fun c => c.setMtime mtime) }, none)
      else
        match updateResp with
        | .ok o => ({ f with src := o.toMinObject }, none)
        | .error .notFound => (f, none)
        | .error .precondition => (f, none)
        | .error e => (f, some (.gcsOp ("UpdateObject") e))

/-- Embedding of FileInode.Sync. A nil content is a no-op. Otherwise a
forced, extended stat checks for clobbering (a clobber is surfaced as
FileClobberedError); then SyncObject runs (response passed as `syncResp`,
carrying the possibly-nil new object): a Precondition failure is surfaced
as FileClobberedError wrapping "SyncObject: Precondition", other failures
as "SyncObject"-wrapped errors; on success with a new object and the local
file cache disabled, the source record is replaced, a local inode becomes
non-local, and the content is destroyed and cleared. -/
def FileInode.Sync (f : FileInode) (stat : Except GErr ObjectRecord)
    (syncResp : Except GErr (Option ObjectRecord)) : FileInode × Option IErr :=
  if f.content.isNone then (f, none)
  else
    let (_latest, isClobbered, cerr) := f.clobbered true true stat
    if isClobbered then (f, some (.fileClobbered cerr))
    else
      match cerr with
      | some e => (f, some e)
      | none =>
          match syncResp with
          | .error .precondition =>
              (f, some (.fileClobbered (some (.gcsOp ("SyncObject") .precondition))))
          | .error e => (f, some (.gcsOp ("SyncObject") e))
          | .ok newObj =>
              match newObj with
              | some o =>
                  if ¬ f.localFileCache then
                    ({ f with src := o.toMinObject, local_ := false, content := none }, none)
                  else (f, none)
              | none => (f, none)

/-- Embedding of FileInode.CreateBufferedOrTempWriter: a local inode with
streaming writes configured gets a bwh; every other inode gets a fresh
empty temp file whose mtime is set to the creation time. -/
def FileInode.CreateBufferedOrTempWriter (f : FileInode) (now : Int) : FileInode :=
  if f.local_ && f.streamingWrites then f.ensureBufferedWriteHandler now
  else
    { f with content := some (TempFile.setMtime { size := 0, mtime := none } now) }

/-- Source-derived part of FileInode.Attributes: size and mtime start from
the source record; a parseable goog-reserved-file-mtime metadata value
overrides the mtime. `parseGoog` embeds strconv.ParseInt(s, 0, 64)
composed with time.Unix. -/
def FileInode.srcAttrs (f : FileInode) (parseGoog : String → Option Int) :
    InodeAttributes :=
  let a := { f.attrs with mtime := f.src.updated, size := f.src.size }
  match metaLookup f.src.metadata ("goog-reserved-file-mtime") with
  | some s =>
      match parseGoog s with
      | some t => { a with mtime := t }
      | none => a
  | none => a

/-- Backing-precedence part of Attributes (source lines guarded by
`f.content != nil` and `f.bwh != nil`): content size (and dirty mtime)
take precedence over the source-derived attributes, a bwh's
write_file_info overrides both size and mtime, and atime and ctime copy
the resulting mtime. -/
def FileInode.blendAttrs (f : FileInode) (a : InodeAttributes) :
    InodeAttributes :=
  let a := match f.content with
    | some c =>
        { a with size := c.size,
                 mtime := match c.mtime with | some m => m | none => a.mtime }
    | none => a
  let a := match f.bwh with
    | some b => { a with mtime := b.writeFileInfo.mtime, size := b.writeFileInfo.totalSize }
    | none => a
  { a with atime := a.mtime, ctime := a.mtime }

/-- Continuation of Attributes after the metadata mtime overrides: the
backing blend above, then the non-forced clobber check sets nlink to 0
iff clobbered or (local and unlinked). -/
def FileInode.attributesRest (f : FileInode) (a : InodeAttributes)
    (stat : Except GErr ObjectRecord) : InodeAttributes × Option IErr :=
  let a := f.blendAttrs a
  match f.clobbered false false stat with
  | (_, _, some e) => (a, some (.wrap ("clobbered") e))
  | (_, clob, none) =>
      ({ a with nlink := if clob || (f.IsLocal && f.IsUnlinked) then 0 else 1 }, none)

/-- Embedding of FileInode.Attributes. `parseRFC` embeds
time.Parse(RFC3339Nano, s); `stat` is the bucket's StatObject response for
the non-forced clobber check. -/
def FileInode.Attributes (f : FileInode) (parseGoog : String → Option Int)
    (parseRFC : String → Option Int) (stat : Except GErr ObjectRecord) :
    InodeAttributes × Option IErr :=
  let a := f.srcAttrs parseGoog
  match metaLookup f.src.metadata ("gcsfuse_mtime") with
  | some s =>
      match parseRFC s with
      | none => (a, some (.badMetadata s))
      | some t => f.attributesRest { a with mtime := t } stat
  | none => f.attributesRest a stat

/-- Mtime Attributes derives from the source record alone (the value used
when neither content nor bwh overrides it): the object's update time,
overridden by a parseable goog-reserved-file-mtime, overridden by a
parseable gcsfuse_mtime. -/
def FileInode.srcDerivedMtime (f : FileInode) (parseGoog : String → Option Int)
    (parseRFC : String → Option Int) : Int :=
  match metaLookup f.src.metadata ("gcsfuse_mtime") with
  | some s =>
      match parseRFC s with
      | some t => t
      | none => (f.srcAttrs parseGoog).mtime
  | none => (f.srcAttrs parseGoog).mtime

/-- One public operation on the inode, carrying the environment's
responses for the bucket calls the operation makes. -/
inductive Op where
  | read (readerResp : Except GErr Unit) (cacheHit : Option CacheObject)
  | write (len : Nat) (offset : Int) (now : Int) (readerResp : Except GErr Unit)
      (cacheHit : Option CacheObject)
  | truncate (size : Int) (now : Int) (readerResp : Except GErr Unit)
      (cacheHit : Option CacheObject)
  | setMtime (t : Int) (updateResp : Except GErr ObjectRecord)
  | sync (stat : Except GErr ObjectRecord) (syncResp : Except GErr (Option ObjectRecord))
  | createBufferedOrTempWriter (now : Int)
  | destroy

/-- State reached after one public operation. -/
def FileInode.step (f : FileInode) (op : Op) : FileInode :=
  match op with
  | .read r c => (f.Read r c).1
  | .write len off now r c => (f.Write len off now r c).1
  | .truncate sz now r c => (f.Truncate sz now r c).1
  | .setMtime t u => (f.SetMtime t u).1
  | .sync st sr => (f.Sync st sr).1
  | .createBufferedOrTempWriter now => f.CreateBufferedOrTempWriter now
  | .destroy => f.Destroy

/-- State reached after a sequence of public operations. -/
def FileInode.run (f : FileInode) (ops : List Op) : FileInode :=
  ops.foldl FileInode.step f

/-- Modelled from the spec: the inode Type enumeration of the type cache
is outside the given sources; the cache's documentation enumerates the
recordable states (unknown, file, directory, both), with UnknownType the
distinguished "nothing known" answer. -/
inductive InodeType where
  | unknownType
  | fileType
  | dirType
  | fileAndDirType
  deriving DecidableEq, Repr

/-- Embedding of cacheEntry: expiry instant plus recorded type. -/
structure CacheEntry where
  expiry : Int
  inodeType : InodeType
  deriving DecidableEq, Repr

/-- Modelled from the spec: lru.Cache is a peer subsystem outside the
given sources; it is a key-value store with Insert, Erase and LookUp
(capacity-based eviction is not modelled; the capacity is megabytes of
fixed-size entries and no claim depends on eviction). -/
def lruInsert (entries : List (String × CacheEntry)) (k : String)
    (v : CacheEntry) : List (String × CacheEntry) :=
  (k, v) :: entries.filter (fun p => p.1 ≠ k)

/-- Modelled from the spec: lru.Cache.Erase removes the key's entry. -/
def lruErase (entries : List (String × CacheEntry)) (k : String) :
    List (String × CacheEntry) :=
  entries.filter (fun p => p.1 ≠ k)

/-- Modelled from the spec: lru.Cache.LookUp returns the key's entry if
present. -/
def lruLookUp (entries : List (String × CacheEntry)) (k : String) :
    Option CacheEntry :=
  match entries.find? (fun p => p.1 = k) with
  | some p => some p.2
  | none => none

/-- State of typeCache: the ttl and the entry store. -/
structure typeCache where
  ttl : Int
  entries : List (String × CacheEntry)
  deriving DecidableEq, Repr

/-- Embedding of newTypeCache: panics (modelled as none) when
sizeInMb <= 0, else starts empty with the given ttl. -/
def newTypeCache (sizeInMb : Int) (ttl : Int) : Option typeCache :=
  if sizeInMb ≤ 0 then none
  else some { ttl := ttl, entries := [] }

/-- Embedding of typeCache.Insert: disabled (no-op) when ttl is zero,
otherwise stores the entry with expiry now + ttl. -/
def typeCache.Insert (tc : typeCache) (now : Int) (name : String)
    (it : InodeType) : typeCache :=
  if tc.ttl = 0 then tc
  else { tc with entries := lruInsert tc.entries name { expiry := now + tc.ttl, inodeType := it } }

/-- Embedding of typeCache.Erase. -/
def typeCache.Erase (tc : typeCache) (name : String) : typeCache :=
  { tc with entries := lruErase tc.entries name }

/-- Embedding of typeCache.Get: an absent entry answers UnknownType; an
expired entry (expiry before now) is erased and answers UnknownType;
otherwise the recorded type is answered. -/
def typeCache.Get (tc : typeCache) (now : Int) (name : String) :
    typeCache × InodeType :=
  match lruLookUp tc.entries name with
  | none => (tc, .unknownType)
  | some e =>
      if e.expiry < now then ({ tc with entries := lruErase tc.entries name }, .unknownType)
      else (tc, e.inodeType)

/-- One public operation on a typeCache. -/
inductive TCOp where
  | insert (now : Int) (name : String) (it : InodeType)
  | erase (name : String)
  | get (now : Int) (name : String)

/-- State reached after one typeCache operation. -/
def typeCache.step (tc : typeCache) (op : TCOp) : typeCache :=
  match op with
  | .insert now name it => tc.Insert now name it
  | .erase name => tc.Erase name
  | .get now name => (tc.Get now name).1

/-- State reached after a sequence of typeCache operations. -/
def typeCache.run (tc : typeCache) (ops : List TCOp) : typeCache :=
  ops.foldl typeCache.step tc

/-! Concrete fixtures used by witnesses and counterexamples. -/

/-- Blank base attributes. -/
def attrs0 : InodeAttributes :=
  { size := 0, mtime := 0, atime := 0, ctime := 0, nlink := 1 }

/-- Remote object at generation (7, 1), size 10. -/
def objGen7 : ObjectRecord :=
  { name := "foo", generation := 7, metaGeneration := 1, size := 10,
    updated := 100, metadata := [], hasContentEncodingGzip := false }

/-- Remote object at generation (8, 1), size 12 — a freshly synced
generation. -/
def objGen8 : ObjectRecord :=
  { name := "foo", generation := 8, metaGeneration := 1, size := 12,
    updated := 200, metadata := [], hasContentEncodingGzip := false }

/-- Empty remote object at generation (7, 1), size 0. -/
def objEmpty : ObjectRecord :=
  { name := "foo", generation := 7, metaGeneration := 1, size := 0,
    updated := 100, metadata := [], hasContentEncodingGzip := false }

/-- Non-local inode backed by objGen7, no backing materialized, all
configuration flags off. -/
def cleanRemoteInode : FileInode :=
  NewFileInode ("foo") attrs0 (some objGen7.toMinObject) false false false

/-- Non-local inode backed by objGen7 with a dirty scratch (size 10,
dirty mtime 50). -/
def scratchRemoteInode : FileInode :=
  { cleanRemoteInode with content := some { size := 10, mtime := some 50 } }

/-- Streaming-state inode: local, bwh materialized, no scratch, streaming
writes configured. -/
def streamingInode : FileInode :=
  { NewFileInode ("foo") attrs0 none false true true with
      bwh := some { totalSize := 5, mtime := 3, failed := false } }

/-- Non-local inode over an empty remote object with streaming writes
configured and a clean scratch already materialized. -/
def scratchEmptyStreamInode : FileInode :=
  { NewFileInode ("foo") attrs0 (some objEmpty.toMinObject) false false true with
      content := some { size := 0, mtime := none } }

/-- Dirty-scratch inode whose scratch was never synced, with the local
file cache enabled. -/
def scratchCacheInode : FileInode :=
  { NewFileInode ("foo") attrs0 (some objGen7.toMinObject) true false false with
      content := some { size := 10, mtime := some 50 } }

/-- State of scratchRemoteInode after a successful sync adopting
objGen8. -/
def syncedRemoteInode : FileInode :=
  { scratchRemoteInode with
      src := objGen8.toMinObject, local_ := false, content := none }

/-- Non-local inode whose source carries a gcsfuse_mtime metadata entry
and whose dirty scratch (size 20, dirty mtime 222) is materialized. -/
def mtimeMetaInode : FileInode :=
  { cleanRemoteInode with
      src := { objGen7.toMinObject with metadata := [(("gcsfuse_mtime"), ("t1"))] },
      content := some { size := 20, mtime := some 222 } }

/-- Parse oracle that fails on every input. -/
def parseNone : String → Option Int := fun _ => none

/-- Parse oracle that answers 111 on every input. -/
def parseConst111 : String → Option Int := fun _ => some 111

/-- Attributes mtimeMetaInode reports: the dirty scratch wins. -/
def attrsW : InodeAttributes :=
  { size := 20, mtime := 222, atime := 222, ctime := 222, nlink := 1 }

/-! Theorems. -/

/-- Comparison of generation pairs is zero exactly on equal pairs. -/
theorem Generation.compare_eq_zero_iff (a b : Generation) :
    Generation.compare a b = 0 ↔ a = b := by
  obtain ⟨ao, am⟩ := a
  obtain ⟨bo, bm⟩ := b
  simp only [Generation.compare, Generation.mk.injEq]
  split_ifs <;> constructor <;> intro h <;>
    (try obtain ⟨e1, e2⟩ := h) <;> omega

/-- C9: SourceGenerationIsAuthoritative returns true exactly when neither
the scratch content nor the bwh is materialized, so the remote object
alone defines the file's content. This holds for every inode state, in
particular every reachable one. -/
theorem c9_authoritative_iff_no_backing (f : FileInode) :
    f.SourceGenerationIsAuthoritative = true ↔ (f.content = none ∧ f.bwh = none) := by
  simp [FileInode.SourceGenerationIsAuthoritative]

/-- C6: clobbered on a NotFound stat reports clobbered iff the inode is
non-local, with no error; on a successful stat it reports the stat's
object and clobbered iff the returned generation pair differs from the
source record's pair, again with no error. -/
theorem c6_clobbered_cases (f : FileInode) (ff ie : Bool) (o : ObjectRecord) :
    f.clobbered ff ie (.error .notFound) = (none, !f.local_, none)
    ∧ ((f.clobbered ff ie (.ok o)).2.1 = true
        ↔ ¬ (f.src.generation = o.generation ∧ f.src.metaGeneration = o.metaGeneration))
    ∧ (f.clobbered ff ie (.ok o)).1 = some o
    ∧ (f.clobbered ff ie (.ok o)).2.2 = none := by
  refine ⟨?_, ?_, rfl, rfl⟩
  · unfold FileInode.clobbered FileInode.IsLocal
    cases h : f.local_ <;> simp [h]
  · simp [FileInode.clobbered, FileInode.SourceGeneration,
      Generation.compare_eq_zero_iff, Generation.mk.injEq]
    tauto

/-- C1 (counterexample): Sync on an inode in the Streaming state (bwh
materialized, no scratch) returns immediately with no error and leaves
the inode unchanged: the bwh is not finalized and dropped, no object is
adopted, and the local flag is not cleared, contrary to the claim. -/
theorem c1_sync_streaming_counterexample :
    streamingInode.Sync (.ok objGen7) (.ok (some objGen8)) = (streamingInode, none)
    ∧ streamingInode.bwh ≠ none
    ∧ streamingInode.local_ = true
    ∧ streamingInode.content = none :=
  ⟨rfl, by decide, rfl, rfl⟩

/-- C1 (amended): Sync on an inode without materialized scratch — in
particular one in the Streaming state — is a no-op: it returns success
and leaves the whole inode state (bwh, source record, local flag)
unchanged; the bwh is not finalized by Sync. -/
theorem c1_sync_without_scratch_noop (f : FileInode)
    (stat : Except GErr ObjectRecord)
    (syncResp : Except GErr (Option ObjectRecord))
    (h : f.content = none) :
    f.Sync stat syncResp = (f, none) := by
  unfold FileInode.Sync
  rw [h]
  rfl

/-- C1 (witness): the amended no-op theorem applied to the concrete
streaming-state inode. -/
theorem c1_sync_without_scratch_noop_witness :
    streamingInode.content = none
    ∧ streamingInode.Sync (.error .notFound) (.error (.transport ("boom")))
        = (streamingInode, none) :=
  ⟨rfl, c1_sync_without_scratch_noop streamingInode _ _ rfl⟩

/-- C2 (counterexample): a Write on an inode that is *not* Pristine — its
scratch is materialized — but whose source size is 0 with streaming
writes configured is routed to a freshly created bwh, not delegated to
scratch, leaving both backings materialized. -/
theorem c2_write_routing_counterexample :
    (scratchEmptyStreamInode.Write 3 0 7 (.ok ()) none).2.2 = WriteRoute.streamed
    ∧ scratchEmptyStreamInode.content ≠ none
    ∧ scratchEmptyStreamInode.bwh = none
    ∧ (scratchEmptyStreamInode.Write 3 0 7 (.ok ()) none).1.content ≠ none
    ∧ (scratchEmptyStreamInode.Write 3 0 7 (.ok ()) none).1.bwh ≠ none := by
  decide

/-- C2 (amended): a Write is enqueued to the bwh exactly when the source
size is 0 and streaming writes are configured (the bwh being created on
demand), or a bwh is already materialized; in every other case the write
goes through ensureContent and is delegated to scratch. (A local inode's
zero-valued source record has size 0, so the local case is subsumed; the
inode being Pristine is not required.) -/
theorem c2_write_routing (f : FileInode) (len : Nat) (offset : Int)
    (now : Int) (readerResp : Except GErr Unit)
    (cacheHit : Option CacheObject) :
    (f.Write len offset now readerResp cacheHit).2.2 = WriteRoute.streamed
      ↔ ((f.src.size = 0 ∧ f.streamingWrites = true) ∨ f.bwh ≠ none) := by
  simp only [FileInode.Write]
  split_ifs with hc
  · cases hb : f.bwh with
    | none =>
        simp [FileInode.ensureBufferedWriteHandler, hb, hc]
    | some b =>
        rcases hbw : b.write len offset with ⟨b', e⟩
        simp [FileInode.ensureBufferedWriteHandler, hb, hbw, hc]
  · cases hb : f.bwh with
    | none =>
        rcases he : f.ensureContent readerResp cacheHit with ⟨f', eo⟩
        cases eo with
        | some e => simp [hb, he, hc]
        | none =>
            cases hcc : f'.content with
            | none => simp [hb, he, hcc, hc]
            | some c => simp [hb, he, hcc, hc]
    | some b =>
        rcases hbw : b.write len offset with ⟨b', e⟩
        simp [hb, hbw]

/-- The state ensureContent returns differs from the input inode at most
in its content field. -/
theorem ensureContent_preserves (f : FileInode) (r : Except GErr Unit)
    (c : Option CacheObject) :
    ((f.ensureContent r c).1).bwh = f.bwh
    ∧ ((f.ensureContent r c).1).streamingWrites = f.streamingWrites := by
  by_cases hl : f.localFileCache
  · cases c with
    | some co =>
        by_cases hg : co.generation = f.src.generation
            ∧ co.metaGeneration = f.src.metaGeneration
        · simp [FileInode.ensureContent, hl, hg]
        · cases ho : f.openReader r with
          | some e => simp [FileInode.ensureContent, hl, hg, ho]
          | none => simp [FileInode.ensureContent, hl, hg, ho]
    | none =>
        cases ho : f.openReader r with
        | some e => simp [FileInode.ensureContent, hl, ho]
        | none => simp [FileInode.ensureContent, hl, ho]
  · by_cases hcn : f.content.isSome
    · simp [FileInode.ensureContent, hl, hcn]
    · cases ho : f.openReader r with
      | some e => simp [FileInode.ensureContent, hl, hcn, ho]
      | none => simp [FileInode.ensureContent, hl, hcn, ho]

/-- With streaming writes disabled, no public operation materializes a
bwh (and the flag itself never changes). -/
theorem step_preserves_no_bwh (f : FileInode) (op : Op)
    (hflag : f.streamingWrites = false) (hbwh : f.bwh = none) :
    (f.step op).streamingWrites = false ∧ (f.step op).bwh = none := by
  cases op with
  | read r c =>
      have hp := ensureContent_preserves f r c
      rcases he : f.ensureContent r c with ⟨f', eo⟩
      rw [he] at hp
      have hpb : f'.bwh = f.bwh := hp.1
      have hps : f'.streamingWrites = f.streamingWrites := hp.2
      cases eo with
      | some e => simp [FileInode.step, FileInode.Read, hbwh, he, hpb, hps, hflag]
      | none => simp [FileInode.step, FileInode.Read, hbwh, he, hpb, hps, hflag]
  | write len off now r c =>
      have hp := ensureContent_preserves f r c
      rcases he : f.ensureContent r c with ⟨f', eo⟩
      rw [he] at hp
      have hpb : f'.bwh = f.bwh := hp.1
      have hps : f'.streamingWrites = f.streamingWrites := hp.2
      have hcond : ¬ (f.src.size = 0 ∧ f.streamingWrites = true) := by
        simp [hflag]
      cases eo with
      | some e =>
          simp [FileInode.step, FileInode.Write, hcond, hbwh, he, hpb, hps, hflag]
      | none =>
          cases hcc : f'.content with
          | none =>
              simp [FileInode.step, FileInode.Write, hcond, hbwh, he, hcc,
                hpb, hps, hflag]
          | some cc =>
              simp [FileInode.step, FileInode.Write, hcond, hbwh, he, hcc,
                hpb, hps, hflag]
  | truncate sz now r c =>
      have hp := ensureContent_preserves f r c
      rcases he : f.ensureContent r c with ⟨f', eo⟩
      rw [he] at hp
      have hpb : f'.bwh = f.bwh := hp.1
      have hps : f'.streamingWrites = f.streamingWrites := hp.2
      cases eo with
      | some e => simp [FileInode.step, FileInode.Truncate, he, hpb, hps, hflag, hbwh]
      | none =>
          cases hcc : f'.content with
          | none => simp [FileInode.step, FileInode.Truncate, he, hcc, hpb, hps, hflag, hbwh]
          | some cc => simp [FileInode.step, FileInode.Truncate, he, hcc, hpb, hps, hflag, hbwh]
  | setMtime t u =>
      by_cases hd : f.statContentMtime.isSome || f.IsLocal
      · simp [FileInode.step, FileInode.SetMtime, hbwh, hd, hflag]
      · cases u with
        | ok o => simp [FileInode.step, FileInode.SetMtime, hbwh, hd, hflag]
        | error e =>
            cases e <;> simp [FileInode.step, FileInode.SetMtime, hbwh, hd, hflag]
  | sync st sr =>
      by_cases hcn : f.content.isNone
      · simp [FileInode.step, FileInode.Sync, hcn, hflag, hbwh]
      · rcases hcl : f.clobbered true true st with ⟨latest, isClob, cerr⟩
        cases isClob with
        | true => simp [FileInode.step, FileInode.Sync, hcn, hcl, hflag, hbwh]
        | false =>
            cases cerr with
            | some e => simp [FileInode.step, FileInode.Sync, hcn, hcl, hflag, hbwh]
            | none =>
                cases sr with
                | error e =>
                    cases e <;> simp [FileInode.step, FileInode.Sync, hcn, hcl, hflag, hbwh]
                | ok newObj =>
                    cases newObj with
                    | none => simp [FileInode.step, FileInode.Sync, hcn, hcl, hflag, hbwh]
                    | some o =>
                        by_cases hlc : f.localFileCache <;>
                          simp [FileInode.step, FileInode.Sync, hcn, hcl, hlc, hflag, hbwh]
  | createBufferedOrTempWriter now =>
      simp [FileInode.step, FileInode.CreateBufferedOrTempWriter, hflag, hbwh]
  | destroy => simp [FileInode.step, FileInode.Destroy, hflag, hbwh]

/-- With streaming writes disabled and no bwh at the start, no bwh exists
after any sequence of public operations. -/
theorem run_preserves_no_bwh (ops : List Op) (f : FileInode)
    (hflag : f.streamingWrites = false) (hbwh : f.bwh = none) :
    (f.run ops).streamingWrites = false ∧ (f.run ops).bwh = none := by
  induction ops generalizing f with
  | nil => exact ⟨hflag, hbwh⟩
  | cons op ops ih =>
      have hstep := step_preserves_no_bwh f op hflag hbwh
      simpa [FileInode.run, List.foldl_cons] using ih (f.step op) hstep.1 hstep.2

/-- C3 (counterexample): starting from a freshly created non-local inode
over an empty remote object with streaming writes configured, the public
sequence Read then Write leaves both the scratch content and the bwh
materialized at once — a durable state, not a transient inside Sync. -/
theorem c3_exclusion_counterexample :
    ((NewFileInode ("foo") attrs0 (some objEmpty.toMinObject) false false true).run
        [Op.read (.ok ()) none, Op.write 3 0 7 (.ok ()) none]).content ≠ none
    ∧ ((NewFileInode ("foo") attrs0 (some objEmpty.toMinObject) false false true).run
        [Op.read (.ok ()) none, Op.write 3 0 7 (.ok ()) none]).bwh ≠ none := by
  decide

/-- C3 (amended): with the streaming-writes flag disabled (and no bwh to
begin with), at most one of scratch and bwh is materialized in every
state reachable by public operations — indeed the bwh is never
materialized at all. -/
theorem c3_backing_exclusive_streaming_disabled (f : FileInode)
    (ops : List Op) (hflag : f.streamingWrites = false)
    (hbwh : f.bwh = none) :
    (f.run ops).content = none ∨ (f.run ops).bwh = none :=
  Or.inr (run_preserves_no_bwh ops f hflag hbwh).2

/-- C3 (witness): the amended exclusion applied to the concrete clean
remote inode and a truncate-then-sync sequence. -/
theorem c3_backing_exclusive_witness :
    cleanRemoteInode.streamingWrites = false
    ∧ cleanRemoteInode.bwh = none
    ∧ ((cleanRemoteInode.run
          [Op.truncate 5 1 (.ok ()) none, Op.sync (.ok objGen7) (.ok (some objGen8))]).content = none
        ∨ (cleanRemoteInode.run
          [Op.truncate 5 1 (.ok ()) none, Op.sync (.ok objGen7) (.ok (some objGen8))]).bwh = none) :=
  ⟨rfl, rfl, c3_backing_exclusive_streaming_disabled cleanRemoteInode _ rfl rfl⟩

/-- Inserting a key makes LookUp of that key return the inserted entry. -/
theorem lruLookUp_lruInsert_self (es : List (String × CacheEntry))
    (k : String) (v : CacheEntry) :
    lruLookUp (lruInsert es k v) k = some v := by
  unfold lruLookUp lruInsert
  rw [List.find?_cons_of_pos _ (by simp)]

/-- Erasing a key makes LookUp of that key return nothing. -/
theorem lruLookUp_lruErase_self (es : List (String × CacheEntry))
    (k : String) :
    lruLookUp (lruErase es k) k = none := by
  unfold lruLookUp lruErase
  have h : List.find? (fun p => p.1 = k) (List.filter (fun p => p.1 ≠ k) es)
      = none := by
    rw [List.find?_eq_none]
    intro x hx
    have hmem := List.of_mem_filter hx
    simp only [decide_not, Bool.not_eq_true] at hmem ⊢
    simpa using hmem
  rw [h]

/-- Runs of a ttl-zero typeCache never populate the entry store. -/
theorem typeCache_run_ttl_zero (ops : List TCOp) :
    typeCache.run { ttl := 0, entries := [] } ops = { ttl := 0, entries := [] } := by
  induction ops with
  | nil => rfl
  | cons op ops ih =>
      have h : typeCache.step { ttl := 0, entries := [] } op
          = { ttl := 0, entries := [] } := by
        cases op with
        | insert now name it => simp [typeCache.step, typeCache.Insert]
        | erase name => simp [typeCache.step, typeCache.Erase, lruErase]
        | get now name => simp [typeCache.step, typeCache.Get, lruLookUp]
      simpa [typeCache.run, List.foldl_cons, h] using ih

/-- C10: a typeCache created with ttl 0 starts empty, stays empty under
every operation sequence (Insert stores nothing), and Get answers
UnknownType for every name and time; with a nonzero ttl, Get after an
Insert answers the inserted type when the expiry (insert time plus ttl)
is not before now, and otherwise erases the entry and answers
UnknownType. -/
theorem c10_typecache_ttl_and_expiry (sz : Int) :
    (0 < sz → newTypeCache sz 0 = some { ttl := 0, entries := [] })
    ∧ (∀ (ops : List TCOp) (now : Int) (name : String),
        (typeCache.run { ttl := 0, entries := [] } ops).Get now name
          = (typeCache.run { ttl := 0, entries := [] } ops, InodeType.unknownType))
    ∧ (∀ (tc : typeCache) (t now : Int) (name : String) (it : InodeType),
        tc.ttl ≠ 0 →
          (¬ t + tc.ttl < now → ((tc.Insert t name it).Get now name).2 = it)
          ∧ (t + tc.ttl < now →
              ((tc.Insert t name it).Get now name).2 = InodeType.unknownType
              ∧ lruLookUp ((tc.Insert t name it).Get now name).1.entries name
                  = none)) := by
  refine ⟨?_, ?_, ?_⟩
  · intro h
    simp [newTypeCache]
    omega
  · intro ops now name
    rw [typeCache_run_ttl_zero]
    rfl
  · intro tc t now name it httl
    constructor
    · intro hexp
      simp [typeCache.Insert, httl, typeCache.Get, lruLookUp_lruInsert_self, hexp]
    · intro hexp
      refine ⟨?_, ?_⟩ <;>
        simp [typeCache.Insert, httl, typeCache.Get, lruLookUp_lruInsert_self,
          hexp, lruLookUp_lruErase_self]

/-- C4 (counterexample): with the local file cache enabled, a Sync whose
SyncObject call produces a new object (generation 8) still returns
success yet leaves the source record at generation 7, the scratch
materialized, and the whole inode state unchanged. -/
theorem c4_sync_localcache_counterexample :
    scratchCacheInode.Sync (.ok objGen7) (.ok (some objGen8))
      = (scratchCacheInode, none)
    ∧ scratchCacheInode.content ≠ none
    ∧ scratchCacheInode.src.generation = 7
    ∧ objGen8.generation = 8 :=
  ⟨rfl, by decide, rfl, rfl⟩

/-- C4 (amended): when Sync on an inode with materialized scratch and the
local file cache *disabled* returns success after SyncObject produced a
new object, the source record is replaced by that object, the scratch is
cleared, the local flag is cleared, and SourceGeneration reflects the
newly written generation. -/
theorem c4_sync_scratch_success (f : FileInode)
    (stat : Except GErr ObjectRecord) (o : ObjectRecord) (f' : FileInode)
    (hc : f.content.isSome = true) (hlc : f.localFileCache = false)
    (hs : f.Sync stat (.ok (some o)) = (f', none)) :
    f'.src = o.toMinObject ∧ f'.content = none ∧ f'.local_ = false
    ∧ f'.SourceGeneration
        = { object := o.generation, metadata := o.metaGeneration } := by
  cases hco : f.content with
  | none => rw [hco] at hc; simp at hc
  | some c =>
      rcases hcl : f.clobbered true true stat with ⟨lt, b, ce⟩
      cases b with
      | true =>
          have hv : f.Sync stat (.ok (some o)) = (f, some (.fileClobbered ce)) := by
            simp [FileInode.Sync, hco, hcl]
          rw [hv] at hs
          simp at hs
      | false =>
          cases ce with
          | some e =>
              have hv : f.Sync stat (.ok (some o)) = (f, some e) := by
                simp [FileInode.Sync, hco, hcl]
              rw [hv] at hs
              simp at hs
          | none =>
              have hv : f.Sync stat (.ok (some o))
                  = ({ f with
                        src := o.toMinObject, local_ := false,
                        content := none }, none) := by
                simp [FileInode.Sync, hco, hcl, hlc]
              rw [hv] at hs
              rw [Prod.mk.injEq] at hs
              obtain ⟨hf, -⟩ := hs
              subst hf
              exact ⟨rfl, rfl, rfl, rfl⟩

/-- C10 (witness): the theorem applied at concrete inputs — a ttl-zero
cache created at size 1 and exercised with one insert, and a ttl-10 cache
queried before and after expiry. -/
theorem c10_typecache_witness :
    newTypeCache 1 0 = some { ttl := 0, entries := [] }
    ∧ (typeCache.run { ttl := 0, entries := [] } [TCOp.insert 5 ("a") InodeType.fileType]).Get 6 ("a")
        = (typeCache.run { ttl := 0, entries := [] } [TCOp.insert 5 ("a") InodeType.fileType],
           InodeType.unknownType)
    ∧ ((typeCache.Insert { ttl := 10, entries := [] } 0 ("a") InodeType.dirType).Get 5 ("a")).2
        = InodeType.dirType
    ∧ ((typeCache.Insert { ttl := 10, entries := [] } 0 ("a") InodeType.dirType).Get 11 ("a")).2
        = InodeType.unknownType :=
  ⟨(c10_typecache_ttl_and_expiry 1).1 (by decide),
   (c10_typecache_ttl_and_expiry 1).2.1 [TCOp.insert 5 ("a") InodeType.fileType] 6 ("a"),
   ((c10_typecache_ttl_and_expiry 1).2.2 { ttl := 10, entries := [] } 0 5 ("a")
      InodeType.dirType (by decide)).1 (by decide),
   (((c10_typecache_ttl_and_expiry 1).2.2 { ttl := 10, entries := [] } 0 11 ("a")
      InodeType.dirType (by decide)).2 (by decide)).1⟩

/-- C4 (witness): the amended sync-success theorem applied to the
concrete dirty-scratch remote inode adopting objGen8. -/
theorem c4_sync_scratch_success_witness :
    scratchRemoteInode.content.isSome = true
    ∧ scratchRemoteInode.localFileCache = false
    ∧ scratchRemoteInode.Sync (.ok objGen7) (.ok (some objGen8))
        = (syncedRemoteInode, none)
    ∧ (syncedRemoteInode.src = objGen8.toMinObject
        ∧ syncedRemoteInode.content = none
        ∧ syncedRemoteInode.local_ = false
        ∧ syncedRemoteInode.SourceGeneration
            = { object := objGen8.generation, metadata := objGen8.metaGeneration }) :=
  ⟨rfl, rfl, rfl,
   c4_sync_scratch_success scratchRemoteInode (.ok objGen7) objGen8
     syncedRemoteInode rfl rfl rfl⟩

/-- C5: when control reaches SyncObject (scratch materialized, the
clobber check passed) and the bucket answers a Precondition error, Sync
returns FileClobberedError wrapping the SyncObject precondition failure —
not a generic transport-wrapped error — and leaves the inode, its source
record included, unchanged. -/
theorem c5_sync_precondition_clobbered (f : FileInode)
    (stat : Except GErr ObjectRecord)
    (hc : f.content.isSome = true)
    (hnb : (f.clobbered true true stat).2.1 = false)
    (hne : (f.clobbered true true stat).2.2 = none) :
    f.Sync stat (.error .precondition)
      = (f, some (.fileClobbered (some (.gcsOp ("SyncObject") .precondition)))) := by
  cases hco : f.content with
  | none => rw [hco] at hc; simp at hc
  | some c =>
      rcases hcl : f.clobbered true true stat with ⟨lt, b, ce⟩
      rw [hcl] at hnb hne
      have hb : b = false := hnb
      have hce : ce = none := hne
      subst hb
      subst hce
      simp [FileInode.Sync, hco, hcl]

/-- C5 (witness): the precondition-to-clobbered theorem applied to the
concrete dirty-scratch remote inode with a matching fresh stat. -/
theorem c5_sync_precondition_clobbered_witness :
    scratchRemoteInode.content.isSome = true
    ∧ (scratchRemoteInode.clobbered true true (.ok objGen7)).2.1 = false
    ∧ (scratchRemoteInode.clobbered true true (.ok objGen7)).2.2 = none
    ∧ scratchRemoteInode.Sync (.ok objGen7) (.error .precondition)
        = (scratchRemoteInode,
           some (.fileClobbered (some (.gcsOp ("SyncObject") .precondition)))) :=
  ⟨rfl, rfl, rfl,
   c5_sync_precondition_clobbered scratchRemoteInode (.ok objGen7) rfl rfl rfl⟩

/-- C7: on the update_object path of SetMtime (no bwh, scratch not dirty,
inode not local), a NotFound or Precondition answer from the bucket makes
SetMtime succeed with the inode unchanged, and a successful answer makes
it adopt the returned object as the new source record. -/
theorem c7_setmtime_update_path (f : FileInode) (t : Int) (o : ObjectRecord)
    (hb : f.bwh = none) (hl : f.local_ = false)
    (hd : f.statContentMtime = none) :
    f.SetMtime t (.error .notFound) = (f, none)
    ∧ f.SetMtime t (.error .precondition) = (f, none)
    ∧ f.SetMtime t (.ok o) = ({ f with src := o.toMinObject }, none) := by
  refine ⟨?_, ?_, ?_⟩ <;>
    simp [FileInode.SetMtime, hb, hd, FileInode.IsLocal, hl]

/-- C7 (witness): the update-path theorem applied to the concrete clean
remote inode. -/
theorem c7_setmtime_update_path_witness :
    cleanRemoteInode.bwh = none
    ∧ cleanRemoteInode.local_ = false
    ∧ cleanRemoteInode.statContentMtime = none
    ∧ cleanRemoteInode.SetMtime 42 (.error .precondition) = (cleanRemoteInode, none)
    ∧ cleanRemoteInode.SetMtime 42 (.ok objGen8)
        = ({ cleanRemoteInode with src := objGen8.toMinObject }, none) :=
  ⟨rfl, rfl, rfl,
   (c7_setmtime_update_path cleanRemoteInode 42 objGen8 rfl rfl rfl).2.1,
   (c7_setmtime_update_path cleanRemoteInode 42 objGen8 rfl rfl rfl).2.2⟩

/-- The blend of content, bwh and atime/ctime over a base attribute
record satisfies the spec precedence. -/
theorem blendAttrs_spec (f : FileInode) (a0 : InodeAttributes) :
    (f.blendAttrs a0).atime = (f.blendAttrs a0).mtime
    ∧ (f.blendAttrs a0).ctime = (f.blendAttrs a0).mtime
    ∧ (∀ b, f.bwh = some b →
        (f.blendAttrs a0).size = b.totalSize ∧ (f.blendAttrs a0).mtime = b.mtime)
    ∧ (f.bwh = none → ∀ c, f.content = some c →
        (f.blendAttrs a0).size = c.size
        ∧ (∀ m, c.mtime = some m → (f.blendAttrs a0).mtime = m))
    ∧ (f.bwh = none → f.content = none →
        (f.blendAttrs a0).size = a0.size ∧ (f.blendAttrs a0).mtime = a0.mtime) := by
  cases hb : f.bwh with
  | some b =>
      cases hc : f.content <;>
        simp [FileInode.blendAttrs, hb, hc, BufferedWriteHandler.writeFileInfo]
  | none =>
      cases hc : f.content with
      | none => simp [FileInode.blendAttrs, hb, hc]
      | some c =>
          cases hm : c.mtime <;>
            simp [FileInode.blendAttrs, hb, hc, hm]

/-- A successful attributesRest answers the blended attributes, with only
nlink possibly differing. -/
theorem attributesRest_fields (f : FileInode) (a0 a : InodeAttributes)
    (stat : Except GErr ObjectRecord)
    (h : f.attributesRest a0 stat = (a, none)) :
    a.size = (f.blendAttrs a0).size ∧ a.mtime = (f.blendAttrs a0).mtime
    ∧ a.atime = (f.blendAttrs a0).atime ∧ a.ctime = (f.blendAttrs a0).ctime := by
  simp only [FileInode.attributesRest] at h
  rcases hcl : f.clobbered false false stat with ⟨lt, b, ce⟩
  rw [hcl] at h
  cases ce with
  | some e => simp at h
  | none =>
      rw [Prod.mk.injEq] at h
      obtain ⟨ha, -⟩ := h
      rw [← ha]
      exact ⟨rfl, rfl, rfl, rfl⟩

/-- The source-derived attribute record always carries the source
object's size. -/
theorem srcAttrs_size (f : FileInode) (pg : String → Option Int) :
    (f.srcAttrs pg).size = f.src.size := by
  unfold FileInode.srcAttrs
  cases h : metaLookup f.src.metadata ("goog-reserved-file-mtime") with
  | none => rfl
  | some s => cases hp : pg s <;> simp [h, hp]

/-- C8: for every successful Attributes call, atime and ctime equal the
computed mtime; a bwh's write_file_info overrides both size and mtime;
otherwise a materialized scratch's size, and (when dirty) its mtime, take
precedence; and with no backing at all, size and mtime come from the
source record (with its metadata mtime overrides). -/
theorem c8_attributes_precedence (f : FileInode)
    (pg pr : String → Option Int) (stat : Except GErr ObjectRecord)
    (a : InodeAttributes)
    (h : f.Attributes pg pr stat = (a, none)) :
    a.atime = a.mtime
    ∧ a.ctime = a.mtime
    ∧ (∀ b, f.bwh = some b → a.size = b.totalSize ∧ a.mtime = b.mtime)
    ∧ (f.bwh = none → ∀ c, f.content = some c →
        a.size = c.size ∧ ∀ m, c.mtime = some m → a.mtime = m)
    ∧ (f.bwh = none → f.content = none →
        a.size = f.src.size ∧ a.mtime = f.srcDerivedMtime pg pr) := by
  simp only [FileInode.Attributes] at h
  cases hm : metaLookup f.src.metadata ("gcsfuse_mtime") with
  | none =>
      rw [hm] at h
      have hf := attributesRest_fields f (f.srcAttrs pg) a stat h
      have hbl := blendAttrs_spec f (f.srcAttrs pg)
      obtain ⟨h1, h2, h3, h4⟩ := hf
      obtain ⟨b1, b2, b3, b4, b5⟩ := hbl
      refine ⟨by rw [h3, h2, b1], by rw [h4, h2, b2], ?_, ?_, ?_⟩
      · intro b hbw
        obtain ⟨s1, s2⟩ := b3 b hbw
        exact ⟨by rw [h1, s1], by rw [h2, s2]⟩
      · intro hbw c hc
        obtain ⟨s1, s2⟩ := b4 hbw c hc
        exact ⟨by rw [h1, s1], fun m hmm => by rw [h2, s2 m hmm]⟩
      · intro hbw hc
        obtain ⟨s1, s2⟩ := b5 hbw hc
        refine ⟨by rw [h1, s1, srcAttrs_size], ?_⟩
        rw [h2, s2]
        simp [FileInode.srcDerivedMtime, hm]
  | some str =>
      rw [hm] at h
      dsimp only at h
      cases hp : pr str with
      | none => rw [hp] at h; simp at h
      | some t =>
          rw [hp] at h
          have hf := attributesRest_fields f { f.srcAttrs pg with mtime := t } a stat h
          have hbl := blendAttrs_spec f { f.srcAttrs pg with mtime := t }
          obtain ⟨h1, h2, h3, h4⟩ := hf
          obtain ⟨b1, b2, b3, b4, b5⟩ := hbl
          refine ⟨by rw [h3, h2, b1], by rw [h4, h2, b2], ?_, ?_, ?_⟩
          · intro b hbw
            obtain ⟨s1, s2⟩ := b3 b hbw
            exact ⟨by rw [h1, s1], by rw [h2, s2]⟩
          · intro hbw c hc
            obtain ⟨s1, s2⟩ := b4 hbw c hc
            exact ⟨by rw [h1, s1], fun m hmm => by rw [h2, s2 m hmm]⟩
          · intro hbw hc
            obtain ⟨s1, s2⟩ := b5 hbw hc
            refine ⟨?_, ?_⟩
            · rw [h1, s1]
              exact srcAttrs_size f pg
            · rw [h2, s2]
              simp [FileInode.srcDerivedMtime, hm, hp]

/-- C8 (witness): the precedence theorem applied to the concrete
dirty-scratch inode whose source carries a gcsfuse_mtime entry; the dirty
scratch wins, and atime and ctime copy the mtime. -/
theorem c8_attributes_precedence_witness :
    mtimeMetaInode.Attributes parseNone parseConst111 (.ok objGen7) = (attrsW, none)
    ∧ attrsW.atime = attrsW.mtime :=
  ⟨rfl,
   (c8_attributes_precedence mtimeMetaInode parseNone parseConst111
     (.ok objGen7) attrsW rfl).1⟩

/-- C2 (amended, witness): the routing equivalence applied to the
concrete streaming-state inode: its write is enqueued to the bwh. -/
theorem c2_write_routing_witness :
    (streamingInode.Write 3 0 7 (.ok ()) none).2.2 = WriteRoute.streamed :=
  (c2_write_routing streamingInode 3 0 7 (.ok ()) none).2 (Or.inr (by decide))

/-- C6 (witness): the clobbered case analysis applied to the concrete
non-local dirty-scratch inode: a NotFound stat reports clobbered. -/
theorem c6_clobbered_cases_witness :
    scratchRemoteInode.clobbered true true (.error .notFound) = (none, true, none) :=
  (c6_clobbered_cases scratchRemoteInode true true objGen8).1

/-- C9 (witness): the authoritative equivalence applied to the concrete
clean remote inode. -/
theorem c9_authoritative_witness :
    cleanRemoteInode.SourceGenerationIsAuthoritative = true :=
  (c9_authoritative_iff_no_backing cleanRemoteInode).2 ⟨rfl, rfl⟩

end Gcsfuse
